import Mathlib

/-!
Shallow embedding of `src/contract/sources/curg_mosaic_reveal.move`
(module `curg_mosaic_reveal::mosaic`), a commit/reveal "guess the picture"
game contract.

Modelling conventions:
* Move byte vectors (`vector<u8>`) become `Bytes := List Nat`.
* Move `String` is modelled by its underlying UTF-8 byte sequence
  (`MoveString := Bytes`); the `string::utf8` validity abort is not modelled
  because no claim touches it.
* Addresses, object ids, clock readings and `u64` amounts become `Nat`
  (no amount in the contract can overflow: the pot only ever joins real coin
  balances, which the host chain bounds).
* `keccak256` is an abstract hash, threaded as an explicit function
  parameter `keccak256 : Bytes → Bytes`; no property of it is assumed.
* `Table<address, Commitment>` is an association list with unique keys
  (`table::add` is only ever called after a contains/remove pair, so keys
  stay unique).
* Each Move entry point is a transaction: `assert!` failures and VM aborts
  (such as an out-of-range `vector::borrow`) abort the whole transaction and
  roll back every effect.  An entry point is therefore a function into
  `Except MoveAbort result`; the wrapper `step` gives the state actually
  observed afterwards (new state on success, the untouched old state on
  abort).
-/

abbrev Bytes : Type := List Nat
abbrev MoveString : Type := Bytes
abbrev Addr : Type := Nat

-- --- Constants (error codes and game parameters from the source) ---

def EGameAlreadySolved : Nat := 0
def EInvalidPayment : Nat := 1
def EInvalidTileIndex : Nat := 2
def ETileAlreadyRevealed : Nat := 3
def EIncorrectAnswer : Nat := 4
def ENoCommitmentFound : Nat := 5
def ECommitmentTooFresh : Nat := 6

def TILE_PRICE : Nat := 1000
def TOTAL_TILES : Nat := 100

/-- A transaction abort: either an `assert!` with a user error code, or a
generic VM abort from an out-of-range vector borrow. -/
inductive MoveAbort : Type where
  | code (n : Nat)
  | vectorOutOfBounds
deriving DecidableEq, Repr

/-- `Commitment` struct: `submission_hash = Hash(User Answer + User Salt)`
plus the commit-time clock reading. -/
structure Commitment : Type where
  submission_hash : Bytes
  timestamp_ms : Nat
deriving DecidableEq, Repr

/-- The shared `Game` object. -/
structure Game : Type where
  id : Nat
  creator : Addr
  answer_hash : Bytes
  walrus_blob_id : MoveString
  encrypted_tile_keys : List Bytes
  encryption_ids : List MoveString
  decrypted_tile_keys : List (Option Bytes)
  pot : Nat
  is_solved : Bool
  winner : Option Addr
  guess_commitments : List (Addr × Commitment)
deriving DecidableEq, Repr

/-- `OracleCap`: unforgeable capability gating `fulfill_reveal`. -/
structure OracleCap : Type where
  id : Nat
deriving DecidableEq, Repr

-- --- Events ---

structure GameCreated : Type where
  game_id : Nat
deriving DecidableEq, Repr

structure TileRevealRequested : Type where
  game_id : Nat
  tile_index : Nat
  requester : Addr
deriving DecidableEq, Repr

structure TileRevealed : Type where
  game_id : Nat
  tile_index : Nat
  decrypted_key : Bytes
deriving DecidableEq, Repr

structure GameSolved : Type where
  game_id : Nat
  winner : Addr
  prize : Nat
deriving DecidableEq, Repr

/-- `transfer::public_transfer` of a SUI coin, recorded as recipient and
amount. -/
structure Transfer : Type where
  recipient : Addr
  amount : Nat
deriving DecidableEq, Repr

-- --- sui::table operations on the association-list model ---

def tableContains (t : List (Addr × Commitment)) (a : Addr) : Bool :=
  t.any (fun p => p.1 = a)

def tableGet (t : List (Addr × Commitment)) (a : Addr) : Option Commitment :=
  (t.find? (fun p => p.1 = a)).map (fun p => p.2)

def tableRemove (t : List (Addr × Commitment)) (a : Addr) :
    List (Addr × Commitment) :=
  t.filter (fun p => ¬ p.1 = a)

def tableAdd (t : List (Addr × Commitment)) (a : Addr) (c : Commitment) :
    List (Addr × Commitment) :=
  (a, c) :: t

-- --- Entry points ---

/-- `create_game` (source lines 88–132): checks both construction vectors
have length `TOTAL_TILES` (both with error `EInvalidPayment`), initialises
every `decrypted_tile_keys` slot to `None`, an empty pot, no winner and an
empty commitment table, and emits `GameCreated`.  The `string::utf8`
conversion loop is the identity on our byte-level `MoveString`. -/
def create_game (id : Nat) (answer_hash : Bytes) (walrus_blob_id : MoveString)
    (encrypted_keys : List Bytes) (encryption_ids_bytes : List Bytes)
    (sender : Addr) : Except MoveAbort (Game × GameCreated) :=
  if ¬ encrypted_keys.length = TOTAL_TILES then
    .error (.code EInvalidPayment)
  else if ¬ encryption_ids_bytes.length = TOTAL_TILES then
    .error (.code EInvalidPayment)
  else
    let game : Game :=
      { id := id
        creator := sender
        answer_hash := answer_hash
        walrus_blob_id := walrus_blob_id
        encrypted_tile_keys := encrypted_keys
        encryption_ids := encryption_ids_bytes
        decrypted_tile_keys := List.replicate TOTAL_TILES none
        pot := 0
        is_solved := false
        winner := none
        guess_commitments := [] }
    .ok (game, { game_id := id })

/-- `request_reveal` (source lines 136–159): asserts game not solved, the
payment's coin value exactly `TILE_PRICE`, `tile_index < TOTAL_TILES`, and
the tile still unrevealed; then joins the payment into the pot and emits
`TileRevealRequested`.  The `vector::borrow` at line 147 aborts generically
if the vector is shorter than the index (impossible for created games). -/
def request_reveal (game : Game) (tile_index : Nat) (payment : Nat)
    (sender : Addr) : Except MoveAbort (Game × TileRevealRequested) :=
  if game.is_solved then .error (.code EGameAlreadySolved)
  else if ¬ payment = TILE_PRICE then .error (.code EInvalidPayment)
  else if ¬ tile_index < TOTAL_TILES then .error (.code EInvalidTileIndex)
  else
    match game.decrypted_tile_keys[tile_index]? with
    | none => .error .vectorOutOfBounds
    | some tile_option =>
      if tile_option.isSome then .error (.code ETileAlreadyRevealed)
      else
        .ok ({ game with pot := game.pot + payment },
             { game_id := game.id, tile_index := tile_index,
               requester := sender })

/-- `fulfill_reveal` (source lines 163–182): no solved-check and no explicit
bounds check; `vector::borrow_mut` aborts generically when `tile_index` is
out of range.  If the slot is still `None` it is filled and `TileRevealed`
is emitted; otherwise the call is a silent no-op (no event). -/
def fulfill_reveal (cap : OracleCap) (game : Game) (tile_index : Nat)
    (decrypted_key : Bytes) : Except MoveAbort (Game × Option TileRevealed) :=
  match game.decrypted_tile_keys[tile_index]? with
  | none => .error .vectorOutOfBounds
  | some key_ref =>
    if key_ref.isNone then
      .ok ({ game with
              decrypted_tile_keys :=
                game.decrypted_tile_keys.set tile_index (some decrypted_key) },
           some { game_id := game.id, tile_index := tile_index,
                  decrypted_key := decrypted_key })
    else
      .ok (game, none)

/-- `commit_guess` (source lines 187–206): asserts game not solved, then
stores `{submission_hash, clock reading}` for the sender, removing any prior
entry first (last commit wins). -/
def commit_guess (game : Game) (submission_hash : Bytes) (clock : Nat)
    (sender : Addr) : Except MoveAbort Game :=
  if game.is_solved then .error (.code EGameAlreadySolved)
  else
    let commitment : Commitment :=
      { submission_hash := submission_hash, timestamp_ms := clock }
    let t :=
      if tableContains game.guess_commitments sender then
        tableRemove game.guess_commitments sender
      else game.guess_commitments
    .ok { game with guess_commitments := tableAdd t sender commitment }

/-- `solve` (source lines 210–265): asserts game not solved; asserts the
sender has a commitment (`ENoCommitmentFound`) and removes it; asserts
`keccak256(answer_input ++ user_salt)` equals the committed hash
(`EIncorrectAnswer`); asserts `keccak256(answer_input)` equals
`game.answer_hash` (`EIncorrectAnswer`) — the `game_salt` parameter is never
read; then sets `is_solved`, sets the winner, takes the whole pot as the
prize coin, transfers it to the sender and emits `GameSolved`.  The
commented-out `ECommitmentTooFresh` check (line 227) is disabled in the
source and hence absent here. -/
def solve (keccak256 : Bytes → Bytes) (game : Game) (answer_input : Bytes)
    (user_salt : Bytes) (game_salt : Bytes) (clock : Nat) (sender : Addr) :
    Except MoveAbort (Game × Transfer × GameSolved) :=
  if game.is_solved then .error (.code EGameAlreadySolved)
  else
    match tableGet game.guess_commitments sender with
    | none => .error (.code ENoCommitmentFound)
    | some commitment =>
      let game1 :=
        { game with
            guess_commitments := tableRemove game.guess_commitments sender }
      let user_combine := answer_input ++ user_salt
      let calculated_user_hash := keccak256 user_combine
      if ¬ calculated_user_hash = commitment.submission_hash then
        .error (.code EIncorrectAnswer)
      else
        let calculated_game_hash := keccak256 answer_input
        if ¬ calculated_game_hash = game1.answer_hash then
          .error (.code EIncorrectAnswer)
        else
          let game2 := { game1 with is_solved := true, winner := some sender }
          let prize_amount := game2.pot
          let game3 := { game2 with pot := game2.pot - prize_amount }
          .ok (game3,
               { recipient := sender, amount := prize_amount },
               { game_id := game2.id, winner := sender,
                 prize := prize_amount })

-- --- Transaction-level semantics ---

/-- One emitted event, any kind. -/
inductive Event : Type where
  | created (e : GameCreated)
  | revealRequested (e : TileRevealRequested)
  | tileRevealed (e : TileRevealed)
  | gameSolved (e : GameSolved)
deriving DecidableEq, Repr

/-- A transaction against an existing `Game` object. -/
inductive Op : Type where
  | requestReveal (tile_index : Nat) (payment : Nat) (sender : Addr)
  | fulfillReveal (cap : OracleCap) (tile_index : Nat) (decrypted_key : Bytes)
  | commitGuess (submission_hash : Bytes) (clock : Nat) (sender : Addr)
  | solveOp (answer_input user_salt game_salt : Bytes) (clock : Nat)
      (sender : Addr)
deriving DecidableEq, Repr

/-- Run one entry point, collecting the new state, emitted events and coin
transfers. -/
def applyOp (keccak256 : Bytes → Bytes) (op : Op) (game : Game) :
    Except MoveAbort (Game × List Event × List Transfer) :=
  match op with
  | .requestReveal tile_index payment sender =>
    (request_reveal game tile_index payment sender).map
      (fun r => (r.1, [.revealRequested r.2], []))
  | .fulfillReveal cap tile_index decrypted_key =>
    (fulfill_reveal cap game tile_index decrypted_key).map
      (fun r => (r.1, (r.2.map Event.tileRevealed).toList, []))
  | .commitGuess submission_hash clock sender =>
    (commit_guess game submission_hash clock sender).map
      (fun g => (g, [], []))
  | .solveOp answer_input user_salt game_salt clock sender =>
    (solve keccak256 game answer_input user_salt game_salt clock sender).map
      (fun r => (r.1, [.gameSolved r.2.2], [r.2.1]))

/-- The state observed after a transaction: the Move VM rolls an aborted
transaction back entirely, so on abort the shared object is unchanged. -/
def step (keccak256 : Bytes → Bytes) (op : Op) (game : Game) : Game :=
  match applyOp keccak256 op game with
  | .ok r => r.1
  | .error _ => game

/-- Games reachable from `create_game` under any transaction sequence. -/
inductive Reachable (keccak256 : Bytes → Bytes) : Game → Prop where
  | create (id : Nat) (answer_hash : Bytes) (walrus_blob_id : MoveString)
      (encrypted_keys : List Bytes) (encryption_ids_bytes : List Bytes)
      (sender : Addr) (g : Game) (ev : GameCreated) :
      create_game id answer_hash walrus_blob_id encrypted_keys
        encryption_ids_bytes sender = .ok (g, ev) →
      Reachable keccak256 g
  | step (op : Op) (g : Game) : Reachable keccak256 g →
      Reachable keccak256 (step keccak256 op g)

-- --- Concrete fixtures (used by witnesses and counterexamples) ---

/-- A concrete instance of the abstract hash, used only to evaluate the
theorems on closed inputs. -/
def hashId : Bytes → Bytes := fun b => b

/-- A small unsolved game whose only commitment (player 7) has digest `[9]`,
which does not match `hashId ([1] ++ [2]) = [1, 2]`. -/
def gMismatch : Game :=
  { id := 0, creator := 1, answer_hash := [1], walrus_blob_id := [],
    encrypted_tile_keys := [], encryption_ids := [],
    decrypted_tile_keys := [none, none], pot := 5, is_solved := false,
    winner := none,
    guess_commitments := [(7, { submission_hash := [9], timestamp_ms := 0 })] }

/-- Same game but with the matching digest `[1, 2]`, so player 7's
`solve [1] [2] …` succeeds under `hashId`. -/
def gMatch : Game :=
  { gMismatch with
      guess_commitments :=
        [(7, { submission_hash := [1, 2], timestamp_ms := 0 })] }


/-- Same game but with no commitment at all for player 7. -/
def gCommitless : Game :=
  { gMismatch with guess_commitments := [] }

/-- A solved variant: pot drained, winner recorded, tiles still hidden. -/
def gSolvedEmptyPot : Game :=
  { gMismatch with
    pot := 0, is_solved := true, winner := some 7,
    guess_commitments := [] }

/-- The game produced by a canonical `create_game` call: creator 3,
`answer_hash = [1]`, 100 empty tile ciphertexts and ids. -/
def gCreate : Game :=
  { id := 0, creator := 3, answer_hash := [1], walrus_blob_id := [],
    encrypted_tile_keys := List.replicate 100 [],
    encryption_ids := List.replicate 100 [],
    decrypted_tile_keys := List.replicate 100 none, pot := 0,
    is_solved := false, winner := none, guess_commitments := [] }

/-- The game state after `gMatch` is successfully solved by player 7. -/
def gMatchSolved : Game :=
  { gMismatch with
    pot := 0, is_solved := true, winner := some 7,
    guess_commitments := [] }

-- --- Theorems ---

/-- C6: the `game_salt` argument of `solve` has no effect — two calls that
agree on the hash function, game state, answer, user salt, clock and caller
but differ arbitrarily in `game_salt` produce identical results (same
accept/reject outcome, same error, same resulting state, transfer and
event), because the correctness check hashes the answer alone. -/
theorem solve_ignores_game_salt (keccak256 : Bytes → Bytes) (game : Game)
    (answer_input user_salt : Bytes) (game_salt1 game_salt2 : Bytes)
    (clock : Nat) (sender : Addr) :
    solve keccak256 game answer_input user_salt game_salt1 clock sender =
      solve keccak256 game answer_input user_salt game_salt2 clock sender :=
  rfl

/-- C1: when `solve` succeeds for caller `sender`, the resulting game is
solved with `winner = some sender`, the transfer pays the entire current pot
(not a fixed amount) to `sender`, the pot afterwards is exactly zero, the
`GameSolved` event carries the winner and that amount, and every subsequent
`solve` call by any caller is rejected with `EGameAlreadySolved`. -/
theorem solve_success_settles (keccak256 : Bytes → Bytes) (game : Game)
    (answer_input user_salt game_salt : Bytes) (clock : Nat) (sender : Addr)
    (g2 : Game) (tr : Transfer) (ev : GameSolved)
    (h : solve keccak256 game answer_input user_salt game_salt clock sender =
      .ok (g2, tr, ev)) :
    g2.is_solved = true ∧ g2.winner = some sender ∧
    tr.recipient = sender ∧ tr.amount = game.pot ∧ g2.pot = 0 ∧
    ev.winner = sender ∧ ev.prize = game.pot ∧
    ∀ (a2 us2 gs2 : Bytes) (clk2 : Nat) (s2 : Addr),
      solve keccak256 g2 a2 us2 gs2 clk2 s2 =
        .error (.code EGameAlreadySolved) := by
  unfold solve at h
  split at h
  · exact absurd h (by simp)
  · split at h
    · exact absurd h (by simp)
    · dsimp only at h
      split at h
      · exact absurd h (by simp)
      · split at h
        · exact absurd h (by simp)
        · cases h
          refine ⟨rfl, rfl, rfl, rfl, Nat.sub_self _, rfl, rfl, ?_⟩
          intro a2 us2 gs2 clk2 s2
          unfold solve
          rfl

/-- Witness for C1 at a concrete successful solve: player 7 wins `gMatch`,
the whole pot of 5 moves, and the solved game rejects every later call. -/
theorem solve_success_settles_witness :
    gMatchSolved.is_solved = true ∧ gMatchSolved.winner = some 7 ∧
    (7 : Addr) = 7 ∧ (5 : Nat) = gMatch.pot ∧ gMatchSolved.pot = 0 ∧
    (7 : Addr) = 7 ∧ (5 : Nat) = gMatch.pot ∧
    ∀ (a2 us2 gs2 : Bytes) (clk2 : Nat) (s2 : Addr),
      solve hashId gMatchSolved a2 us2 gs2 clk2 s2 =
        .error (.code EGameAlreadySolved) :=
  solve_success_settles hashId gMatch [1] [2] [] 5 7 gMatchSolved
    { recipient := 7, amount := 5 } { game_id := 0, winner := 7, prize := 5 }
    rfl

/-- C3: every entry point is atomic — whenever a transaction aborts (any
precondition failure, for `request_reveal`, `fulfill_reveal`,
`commit_guess` or `solve`), the observed game state afterwards is exactly
the old state: no field mutated, no commitment added or removed, pot
unchanged. -/
theorem step_atomic_on_abort (keccak256 : Bytes → Bytes) (op : Op)
    (game : Game) (e : MoveAbort)
    (h : applyOp keccak256 op game = .error e) :
    step keccak256 op game = game := by
  unfold step
  rw [h]

/-- Witness for C3: a concrete rejected `request_reveal` (payment `5` is not
`TILE_PRICE`) leaves the game untouched. -/
theorem step_atomic_on_abort_witness :
    applyOp hashId (Op.requestReveal 0 5 9) gMismatch =
      .error (.code EInvalidPayment) ∧
    step hashId (Op.requestReveal 0 5 9) gMismatch = gMismatch :=
  ⟨rfl, step_atomic_on_abort hashId (Op.requestReveal 0 5 9) gMismatch
    (.code EInvalidPayment) rfl⟩

/-- Helper: `Except.map` returns `ok` only on an `ok` argument. -/
theorem except_map_ok {ε α β : Type} (f : α → β) (e : Except ε α) (b : β)
    (h : Except.map f e = .ok b) : ∃ a, e = .ok a ∧ b = f a := by
  cases e with
  | error err => exact absurd h (by simp [Except.map])
  | ok a =>
    refine ⟨a, rfl, ?_⟩
    simpa [Except.map] using h.symm

/-- Helper: a successful transaction steps to the returned state. -/
theorem step_of_ok (keccak256 : Bytes → Bytes) (op : Op) (game : Game)
    (r : Game × List Event × List Transfer)
    (h : applyOp keccak256 op game = .ok r) : step keccak256 op game = r.1 := by
  unfold step
  rw [h]

/-- Helper: an aborted transaction steps to the unchanged state. -/
theorem step_of_error (keccak256 : Bytes → Bytes) (op : Op) (game : Game)
    (e : MoveAbort) (h : applyOp keccak256 op game = .error e) :
    step keccak256 op game = game := by
  unfold step
  rw [h]

/-- Helper: full characterization of a successful `request_reveal`. -/
theorem request_reveal_ok_characterize (game : Game) (tile_index payment : Nat)
    (sender : Addr) (g2 : Game) (ev : TileRevealRequested)
    (h : request_reveal game tile_index payment sender = .ok (g2, ev)) :
    game.is_solved = false ∧ payment = TILE_PRICE ∧
    tile_index < TOTAL_TILES ∧
    game.decrypted_tile_keys[tile_index]? = some none ∧
    g2 = { game with pot := game.pot + payment } ∧
    ev = { game_id := game.id, tile_index := tile_index,
           requester := sender } := by
  unfold request_reveal at h
  split at h
  · exact absurd h (by simp)
  · split at h
    · exact absurd h (by simp)
    · split at h
      · exact absurd h (by simp)
      · rename_i hsolved hpay hidx
        split at h
        · exact absurd h (by simp)
        · rename_i tile_option heq
          split at h
          · exact absurd h (by simp)
          · rename_i hsome
            cases h
            refine ⟨by simpa using hsolved, by simpa using hpay,
              by simpa using hidx, ?_, rfl, rfl⟩
            cases tile_option with
            | none => exact heq
            | some k => exact absurd rfl hsome

/-- Helper: full characterization of a successful `fulfill_reveal`. -/
theorem fulfill_reveal_ok_characterize (cap : OracleCap) (game : Game)
    (tile_index : Nat) (decrypted_key : Bytes) (g2 : Game)
    (evopt : Option TileRevealed)
    (h : fulfill_reveal cap game tile_index decrypted_key = .ok (g2, evopt)) :
    (game.decrypted_tile_keys[tile_index]? = some none ∧
      g2 = { game with
              decrypted_tile_keys :=
                game.decrypted_tile_keys.set tile_index
                  (some decrypted_key) } ∧
      evopt = some { game_id := game.id, tile_index := tile_index,
                     decrypted_key := decrypted_key }) ∨
    ((∃ k, game.decrypted_tile_keys[tile_index]? = some (some k)) ∧
      g2 = game ∧ evopt = none) := by
  unfold fulfill_reveal at h
  split at h
  · exact absurd h (by simp)
  · rename_i key_ref heq
    split at h
    · rename_i hnone
      cases h
      left
      rw [Option.isNone_iff_eq_none.mp hnone] at heq
      exact ⟨heq, rfl, rfl⟩
    · rename_i hsome
      cases h
      right
      cases key_ref with
      | none => exact absurd rfl hsome
      | some k => exact ⟨⟨k, heq⟩, rfl, rfl⟩

/-- Helper: full characterization of a successful `commit_guess`. -/
theorem commit_guess_ok_characterize (game : Game) (submission_hash : Bytes)
    (clock : Nat) (sender : Addr) (g2 : Game)
    (h : commit_guess game submission_hash clock sender = .ok g2) :
    game.is_solved = false ∧
    g2 = { game with
            guess_commitments :=
              tableAdd
                (if tableContains game.guess_commitments sender then
                  tableRemove game.guess_commitments sender
                 else game.guess_commitments)
                sender
                { submission_hash := submission_hash,
                  timestamp_ms := clock } } := by
  unfold commit_guess at h
  split at h
  · exact absurd h (by simp)
  · rename_i hsolved
    cases h
    exact ⟨by simpa using hsolved, rfl⟩

/-- Helper: full characterization of a successful `solve`. -/
theorem solve_ok_characterize (keccak256 : Bytes → Bytes) (game : Game)
    (answer_input user_salt game_salt : Bytes) (clock : Nat) (sender : Addr)
    (g2 : Game) (tr : Transfer) (ev : GameSolved)
    (h : solve keccak256 game answer_input user_salt game_salt clock sender =
      .ok (g2, tr, ev)) :
    game.is_solved = false ∧
    (∃ c, tableGet game.guess_commitments sender = some c ∧
      keccak256 (answer_input ++ user_salt) = c.submission_hash) ∧
    keccak256 answer_input = game.answer_hash ∧
    g2 = { game with
            guess_commitments := tableRemove game.guess_commitments sender,
            is_solved := true,
            winner := some sender,
            pot := game.pot - game.pot } ∧
    tr = { recipient := sender, amount := game.pot } ∧
    ev = { game_id := game.id, winner := sender, prize := game.pot } := by
  unfold solve at h
  split at h
  · exact absurd h (by simp)
  · rename_i hsolved
    split at h
    · exact absurd h (by simp)
    · rename_i commitment hget
      dsimp only at h
      split at h
      · exact absurd h (by simp)
      · rename_i huser
        split at h
        · exact absurd h (by simp)
        · rename_i hgame
          cases h
          exact ⟨by simpa using hsolved,
            ⟨commitment, hget, by simpa using huser⟩,
            by simpa using hgame, rfl, rfl, rfl⟩

/-- Helper: one transaction either leaves `decrypted_tile_keys` untouched,
or (a successful `fulfill_reveal`) fills exactly one slot that was `none`. -/
theorem step_decrypted_keys_cases (keccak256 : Bytes → Bytes) (op : Op)
    (game : Game) :
    (step keccak256 op game).decrypted_tile_keys =
        game.decrypted_tile_keys ∨
    ∃ j key, game.decrypted_tile_keys[j]? = some none ∧
      (step keccak256 op game).decrypted_tile_keys =
        game.decrypted_tile_keys.set j (some key) := by
  cases hap : applyOp keccak256 op game with
  | error e =>
    rw [step_of_error keccak256 op game e hap]
    exact Or.inl rfl
  | ok r =>
    rw [step_of_ok keccak256 op game r hap]
    cases op with
    | requestReveal tile_index payment sender =>
      left
      simp only [applyOp] at hap
      obtain ⟨a, ha, hr⟩ := except_map_ok _ _ _ hap
      obtain ⟨-, -, -, -, hg2, -⟩ :=
        request_reveal_ok_characterize game tile_index payment sender a.1 a.2 ha
      rw [hr]
      rw [hg2]
    | fulfillReveal cap tile_index decrypted_key =>
      simp only [applyOp] at hap
      obtain ⟨a, ha, hr⟩ := except_map_ok _ _ _ hap
      rcases fulfill_reveal_ok_characterize cap game tile_index decrypted_key
          a.1 a.2 ha with ⟨hslot, hg2, -⟩ | ⟨-, hg2, -⟩
      · right
        exact ⟨tile_index, decrypted_key, hslot, by rw [hr, hg2]⟩
      · left
        rw [hr, hg2]
    | commitGuess submission_hash clock sender =>
      left
      simp only [applyOp] at hap
      obtain ⟨a, ha, hr⟩ := except_map_ok _ _ _ hap
      obtain ⟨-, hg2⟩ :=
        commit_guess_ok_characterize game submission_hash clock sender a ha
      rw [hr, hg2]
    | solveOp answer_input user_salt game_salt clock sender =>
      left
      simp only [applyOp] at hap
      obtain ⟨a, ha, hr⟩ := except_map_ok _ _ _ hap
      obtain ⟨-, -, -, hg2, -, -⟩ :=
        solve_ok_characterize keccak256 game answer_input user_salt game_salt
          clock sender a.1 a.2.1 a.2.2 ha
      rw [hr, hg2]

/-- C4: once `decrypted_tile_keys[i]` holds `some key`, no subsequent
transaction of any kind ever changes that slot again; moreover a second
`fulfill_reveal` for tile `i` succeeds as a silent no-op — state unchanged
and no `TileRevealed` event emitted. -/
theorem revealed_key_immutable (keccak256 : Bytes → Bytes) (op : Op)
    (game : Game) (i : Nat) (k : Bytes)
    (h : game.decrypted_tile_keys[i]? = some (some k)) :
    (step keccak256 op game).decrypted_tile_keys[i]? = some (some k) ∧
    ∀ (cap : OracleCap) (key2 : Bytes),
      fulfill_reveal cap game i key2 = .ok (game, none) := by
  constructor
  · rcases step_decrypted_keys_cases keccak256 op game with
        heq | ⟨j, key, hj, heq⟩
    · rw [heq, h]
    · have hij : i ≠ j := by
        intro hcontra
        rw [hcontra, hj] at h
        exact Option.noConfusion (Option.some.inj h)
      rw [heq, List.getElem?_set_ne (fun hc => hij hc.symm), h]
  · intro cap key2
    unfold fulfill_reveal
    rw [h]
    rfl

/-- A game whose tile 0 is already revealed with key `[3]`. -/
def gRevealed : Game :=
  { gMismatch with decrypted_tile_keys := [some [3], none] }

/-- Witness for C4: in a game where tile 0 already holds key `[3]`, a
`commit_guess` transaction leaves the slot untouched and a repeated
`fulfill_reveal` is a silent no-op. -/
theorem revealed_key_immutable_witness :
    (step hashId (Op.commitGuess [4] 0 9) gRevealed).decrypted_tile_keys[0]? =
      some (some [3]) ∧
    fulfill_reveal { id := 0 } gRevealed 0 [8] = .ok (gRevealed, none) := by
  exact ⟨(revealed_key_immutable hashId (Op.commitGuess [4] 0 9) gRevealed 0 [3]
      (by decide)).1,
    (revealed_key_immutable hashId (Op.commitGuess [4] 0 9) gRevealed 0 [3]
      (by decide)).2 { id := 0 } [8]⟩

/-- C5: `solve` succeeds only when the caller holds a live commitment whose
digest equals `keccak256(answer ++ user_salt)` for the exact arguments
passed; on an unsolved game, no commitment is rejected with
`ENoCommitmentFound`, and a mismatching digest with `EIncorrectAnswer`. -/
theorem solve_requires_matching_commitment (keccak256 : Bytes → Bytes)
    (game : Game) (answer_input user_salt game_salt : Bytes) (clock : Nat)
    (sender : Addr) :
    (∀ g2 tr ev,
      solve keccak256 game answer_input user_salt game_salt clock sender =
        .ok (g2, tr, ev) →
      ∃ c, tableGet game.guess_commitments sender = some c ∧
        c.submission_hash = keccak256 (answer_input ++ user_salt)) ∧
    (game.is_solved = false →
      tableGet game.guess_commitments sender = none →
      solve keccak256 game answer_input user_salt game_salt clock sender =
        .error (.code ENoCommitmentFound)) ∧
    (game.is_solved = false →
      ∀ c, tableGet game.guess_commitments sender = some c →
        c.submission_hash ≠ keccak256 (answer_input ++ user_salt) →
        solve keccak256 game answer_input user_salt game_salt clock sender =
          .error (.code EIncorrectAnswer)) := by
  refine ⟨?_, ?_, ?_⟩
  · intro g2 tr ev h
    obtain ⟨-, ⟨c, hc, hh⟩, -, -, -, -⟩ :=
      solve_ok_characterize keccak256 game answer_input user_salt game_salt
        clock sender g2 tr ev h
    exact ⟨c, hc, hh.symm⟩
  · intro h1 h2
    simp [solve, h1, h2]
  · intro h1 c hc hne
    simp only [solve, h1, hc, Bool.false_eq_true, if_false]
    rw [if_pos]
    exact fun hcontra => hne hcontra.symm

/-- Witness for C5 at concrete inputs: a successful solve exposes the
matching commitment; an absent commitment and a mismatching digest are
rejected with the specific error codes. -/
theorem solve_requires_matching_commitment_witness :
    (∃ c, tableGet gMatch.guess_commitments 7 = some c ∧
      c.submission_hash = hashId ([1] ++ [2])) ∧
    solve hashId gCommitless [1] [2] [] 5 7 =
      .error (.code ENoCommitmentFound) ∧
    solve hashId gMismatch [1] [2] [] 5 7 =
      .error (.code EIncorrectAnswer) := by
  refine ⟨(solve_requires_matching_commitment hashId gMatch [1] [2] [] 5
      7).1 _ _ _ rfl,
    (solve_requires_matching_commitment hashId gCommitless [1] [2] [] 5
      7).2.1 (by decide) (by decide),
    (solve_requires_matching_commitment hashId gMismatch [1] [2] [] 5
      7).2.2 (by decide) { submission_hash := [9], timestamp_ms := 0 }
      (by decide) (by decide)⟩

/-- C7: `fulfill_reveal` is permitted after the game is solved — on any
solved game with a still-unrevealed valid tile, the capability holder's call
does not fail (in particular not with `EGameAlreadySolved`) but fills the
slot and emits the `TileRevealed` event. -/
theorem fulfill_allowed_after_solved (cap : OracleCap) (game : Game)
    (tile_index : Nat) (decrypted_key : Bytes)
    (hs : game.is_solved = true)
    (hslot : game.decrypted_tile_keys[tile_index]? = some none) :
    fulfill_reveal cap game tile_index decrypted_key =
      .ok ({ game with
              decrypted_tile_keys :=
                game.decrypted_tile_keys.set tile_index
                  (some decrypted_key) },
           some { game_id := game.id, tile_index := tile_index,
                  decrypted_key := decrypted_key }) := by
  unfold fulfill_reveal
  rw [hslot]
  rfl

/-- Witness for C7: on a concrete solved game, fulfilling tile 1 succeeds
and emits the event. -/
theorem fulfill_allowed_after_solved_witness :
    fulfill_reveal { id := 0 } gSolvedEmptyPot 1 [8] =
      .ok ({ gSolvedEmptyPot with
              decrypted_tile_keys :=
                gSolvedEmptyPot.decrypted_tile_keys.set 1 (some [8]) },
           some { game_id := 0, tile_index := 1, decrypted_key := [8] }) :=
  fulfill_allowed_after_solved { id := 0 } gSolvedEmptyPot 1 [8] (by decide)
    (by decide)

/-- C8: `request_reveal` with a payment different from `TILE_PRICE` is
always rejected — for every tile index, caller and game state — and the
observed state (in particular the pot) is unchanged. -/
theorem request_reveal_wrong_payment_rejected (keccak256 : Bytes → Bytes)
    (game : Game) (tile_index : Nat) (payment : Nat) (sender : Addr)
    (h : payment ≠ TILE_PRICE) :
    (∃ e, request_reveal game tile_index payment sender = .error e) ∧
    step keccak256 (Op.requestReveal tile_index payment sender) game =
      game := by
  have herr : ∃ e, request_reveal game tile_index payment sender =
      .error e := by
    by_cases hs : game.is_solved
    · exact ⟨.code EGameAlreadySolved, by simp [request_reveal, hs]⟩
    · exact ⟨.code EInvalidPayment, by simp [request_reveal, hs, h]⟩
  obtain ⟨e, he⟩ := herr
  refine ⟨⟨e, he⟩, step_of_error keccak256 _ game e ?_⟩
  simp only [applyOp, he, Except.map]

/-- Witness for C8: overpaying (`1001`) on an unsolved game and underpaying
(`5`) on a solved game are both rejected with the state unchanged. -/
theorem request_reveal_wrong_payment_rejected_witness :
    ((∃ e, request_reveal gMismatch 0 1001 9 = .error e) ∧
      step hashId (Op.requestReveal 0 1001 9) gMismatch = gMismatch) ∧
    ((∃ e, request_reveal gSolvedEmptyPot 0 5 9 = .error e) ∧
      step hashId (Op.requestReveal 0 5 9) gSolvedEmptyPot =
        gSolvedEmptyPot) :=
  ⟨request_reveal_wrong_payment_rejected hashId gMismatch 0 1001 9
      (by decide),
    request_reveal_wrong_payment_rejected hashId gSolvedEmptyPot 0 5 9
      (by decide)⟩

/-- C10: `fulfill_reveal` has no explicit bounds check — on a game whose
tile vector has the canonical length `TOTAL_TILES`, any `tile_index ≥
TOTAL_TILES` aborts with the generic out-of-range vector abort (never the
`EInvalidTileIndex` code), leaving the observed state unchanged; any
`tile_index < TOTAL_TILES` makes the borrow in range, so the call always
succeeds. -/
theorem fulfill_reveal_no_bounds_check (keccak256 : Bytes → Bytes)
    (cap : OracleCap) (game : Game) (tile_index : Nat)
    (decrypted_key : Bytes)
    (hlen : game.decrypted_tile_keys.length = TOTAL_TILES) :
    (TOTAL_TILES ≤ tile_index →
      fulfill_reveal cap game tile_index decrypted_key =
        .error .vectorOutOfBounds ∧
      (∀ n : Nat, (MoveAbort.vectorOutOfBounds : MoveAbort) ≠ .code n) ∧
      step keccak256 (Op.fulfillReveal cap tile_index decrypted_key) game =
        game) ∧
    (tile_index < TOTAL_TILES →
      (fulfill_reveal cap game tile_index decrypted_key).isOk = true) := by
  constructor
  · intro hge
    have hnone : game.decrypted_tile_keys[tile_index]? = none := by
      rw [List.getElem?_eq_none_iff, hlen]
      exact hge
    have herr : fulfill_reveal cap game tile_index decrypted_key =
        .error .vectorOutOfBounds := by
      unfold fulfill_reveal
      rw [hnone]
    refine ⟨herr, fun n h => MoveAbort.noConfusion h,
      step_of_error keccak256 _ game .vectorOutOfBounds ?_⟩
    simp only [applyOp, herr, Except.map]
  · intro hlt
    have hlt2 : tile_index < game.decrypted_tile_keys.length := by
      rw [hlen]
      exact hlt
    obtain ⟨v, hsome⟩ : ∃ v, game.decrypted_tile_keys[tile_index]? = some v :=
      ⟨_, List.getElem?_eq_getElem hlt2⟩
    unfold fulfill_reveal
    rw [hsome]
    dsimp only
    split
    · rfl
    · rfl

/-- Witness for C10 on the 100-slot created game: index 100 aborts with the
generic vector abort and leaves the state unchanged, index 99 succeeds. -/
theorem fulfill_reveal_no_bounds_check_witness :
    (fulfill_reveal { id := 0 } gCreate 100 [8] =
        .error .vectorOutOfBounds ∧
      (∀ n : Nat, (MoveAbort.vectorOutOfBounds : MoveAbort) ≠ .code n) ∧
      step hashId (Op.fulfillReveal { id := 0 } 100 [8]) gCreate =
        gCreate) ∧
    (fulfill_reveal { id := 0 } gCreate 99 [8]).isOk = true :=
  ⟨(fulfill_reveal_no_bounds_check hashId { id := 0 } gCreate 100 [8]
      (by decide)).1 (by decide),
    (fulfill_reveal_no_bounds_check hashId { id := 0 } gCreate 99 [8]
      (by decide)).2 (by decide)⟩

/-- Helper: after removing a key from the table, `contains` is false. -/
theorem tableContains_tableRemove (t : List (Addr × Commitment)) (a : Addr) :
    tableContains (tableRemove t a) a = false := by
  rw [Bool.eq_false_iff]
  intro h
  obtain ⟨p, hp, hpa⟩ := List.any_eq_true.mp h
  rw [tableRemove, List.mem_filter] at hp
  exact absurd (of_decide_eq_true hpa) (of_decide_eq_true hp.2)

/-- C2 counterexample: in `gMismatch` player 7's commitment digest `[9]`
does not match `hashId ([1] ++ [2])`, so `solve` aborts with
`EIncorrectAnswer`; the abort rolls the whole transaction back, the
commitment is NOT consumed, and the repeated identical `solve` fails again
with `EIncorrectAnswer`, not with `ENoCommitmentFound` as the claim
states. -/
theorem commitment_single_use_counterexample :
    solve hashId gMismatch [1] [2] [] 5 7 = .error (.code EIncorrectAnswer) ∧
    step hashId (Op.solveOp [1] [2] [] 5 7) gMismatch = gMismatch ∧
    tableContains gMismatch.guess_commitments 7 = true ∧
    solve hashId (step hashId (Op.solveOp [1] [2] [] 5 7) gMismatch)
        [1] [2] [] 5 7 ≠ .error (.code ENoCommitmentFound) := by
  refine ⟨rfl, rfl, rfl, ?_⟩
  intro h
  rw [show solve hashId (step hashId (Op.solveOp [1] [2] [] 5 7) gMismatch)
      [1] [2] [] 5 7 = .error (.code EIncorrectAnswer) from rfl] at h
  injection h with h2
  injection h2 with h3
  exact absurd h3 (by decide)

/-- C2 amended: a failed self-consistency check aborts the whole `solve`
transaction with `EIncorrectAnswer`, so the commitment is retained and the
repeated identical `solve` is rejected with `EIncorrectAnswer` again; only a
successful `solve` consumes the commitment, and afterwards any `solve` is
rejected with `EGameAlreadySolved` (checked before the commitment lookup). -/
theorem commitment_consumed_only_on_success (keccak256 : Bytes → Bytes)
    (game : Game) (answer_input user_salt game_salt : Bytes) (clock : Nat)
    (sender : Addr) :
    (solve keccak256 game answer_input user_salt game_salt clock sender =
        .error (.code EIncorrectAnswer) →
      step keccak256 (Op.solveOp answer_input user_salt game_salt clock
          sender) game = game ∧
      solve keccak256
          (step keccak256 (Op.solveOp answer_input user_salt game_salt clock
            sender) game)
          answer_input user_salt game_salt clock sender =
        .error (.code EIncorrectAnswer)) ∧
    (∀ g2 tr ev,
      solve keccak256 game answer_input user_salt game_salt clock sender =
        .ok (g2, tr, ev) →
      tableContains g2.guess_commitments sender = false ∧
      ∀ (a2 us2 gs2 : Bytes) (clk2 : Nat) (s2 : Addr),
        solve keccak256 g2 a2 us2 gs2 clk2 s2 =
          .error (.code EGameAlreadySolved)) := by
  constructor
  · intro h
    have hstep : step keccak256
        (Op.solveOp answer_input user_salt game_salt clock sender) game =
        game := by
      apply step_of_error keccak256 _ game (.code EIncorrectAnswer)
      simp only [applyOp, h, Except.map]
    rw [hstep]
    exact ⟨rfl, h⟩
  · intro g2 tr ev h
    obtain ⟨-, -, -, hg2, -, -⟩ :=
      solve_ok_characterize keccak256 game answer_input user_salt game_salt
        clock sender g2 tr ev h
    subst hg2
    refine ⟨tableContains_tableRemove game.guess_commitments sender, ?_⟩
    intro a2 us2 gs2 clk2 s2
    unfold solve
    rfl

/-- Witness for C2-amended: the failed path on `gMismatch` retains the
commitment and repeats `EIncorrectAnswer`; the successful path on `gMatch`
consumes it and locks the game. -/
theorem commitment_consumed_only_on_success_witness :
    (step hashId (Op.solveOp [1] [2] [] 5 7) gMismatch = gMismatch ∧
      solve hashId (step hashId (Op.solveOp [1] [2] [] 5 7) gMismatch)
          [1] [2] [] 5 7 = .error (.code EIncorrectAnswer)) ∧
    (tableContains gMatchSolved.guess_commitments 7 = false ∧
      ∀ (a2 us2 gs2 : Bytes) (clk2 : Nat) (s2 : Addr),
        solve hashId gMatchSolved a2 us2 gs2 clk2 s2 =
          .error (.code EGameAlreadySolved)) :=
  ⟨(commitment_consumed_only_on_success hashId gMismatch [1] [2] [] 5 7).1
      rfl,
    (commitment_consumed_only_on_success hashId gMatch [1] [2] [] 5 7).2
      gMatchSolved { recipient := 7, amount := 5 }
      { game_id := 0, winner := 7, prize := 5 } rfl⟩

/-- Helper: characterization of a successful `create_game`. -/
theorem create_game_ok_characterize (id : Nat) (answer_hash : Bytes)
    (walrus_blob_id : MoveString) (encrypted_keys : List Bytes)
    (encryption_ids_bytes : List Bytes) (sender : Addr) (g : Game)
    (ev : GameCreated)
    (h : create_game id answer_hash walrus_blob_id encrypted_keys
      encryption_ids_bytes sender = .ok (g, ev)) :
    encrypted_keys.length = TOTAL_TILES ∧
    encryption_ids_bytes.length = TOTAL_TILES ∧
    g = { id := id, creator := sender, answer_hash := answer_hash,
          walrus_blob_id := walrus_blob_id,
          encrypted_tile_keys := encrypted_keys,
          encryption_ids := encryption_ids_bytes,
          decrypted_tile_keys := List.replicate TOTAL_TILES none,
          pot := 0, is_solved := false, winner := none,
          guess_commitments := [] } ∧
    ev = { game_id := id } := by
  unfold create_game at h
  split at h
  · exact absurd h (by simp)
  · split at h
    · exact absurd h (by simp)
    · rename_i h1 h2
      cases h
      exact ⟨not_not.mp h1, not_not.mp h2, rfl, rfl⟩

/-- Helper: each transaction preserves the settlement invariant
"solved implies a winner is recorded and the pot is zero". -/
theorem step_preserves_settlement_invariant (keccak256 : Bytes → Bytes)
    (op : Op) (game : Game)
    (h : game.is_solved = true → game.winner.isSome ∧ game.pot = 0) :
    (step keccak256 op game).is_solved = true →
      (step keccak256 op game).winner.isSome ∧
      (step keccak256 op game).pot = 0 := by
  cases hap : applyOp keccak256 op game with
  | error e =>
    rw [step_of_error keccak256 op game e hap]
    exact h
  | ok r =>
    rw [step_of_ok keccak256 op game r hap]
    cases op with
    | requestReveal tile_index payment sender =>
      simp only [applyOp] at hap
      obtain ⟨a, ha, hr⟩ := except_map_ok _ _ _ hap
      obtain ⟨hsolved, -, -, -, hg2, -⟩ :=
        request_reveal_ok_characterize game tile_index payment sender
          a.1 a.2 ha
      rw [hr, hg2]
      intro hcontra
      rw [show ({ game with pot := game.pot + payment } : Game).is_solved =
        game.is_solved from rfl, hsolved] at hcontra
      exact absurd hcontra (by simp)
    | fulfillReveal cap tile_index decrypted_key =>
      simp only [applyOp] at hap
      obtain ⟨a, ha, hr⟩ := except_map_ok _ _ _ hap
      rcases fulfill_reveal_ok_characterize cap game tile_index decrypted_key
          a.1 a.2 ha with ⟨-, hg2, -⟩ | ⟨-, hg2, -⟩
      · rw [hr, hg2]
        exact h
      · rw [hr, hg2]
        exact h
    | commitGuess submission_hash clock sender =>
      simp only [applyOp] at hap
      obtain ⟨a, ha, hr⟩ := except_map_ok _ _ _ hap
      obtain ⟨hsolved, hg2⟩ :=
        commit_guess_ok_characterize game submission_hash clock sender a ha
      rw [hr, hg2]
      intro hcontra
      exact absurd (hsolved ▸ hcontra) (by simp)
    | solveOp answer_input user_salt game_salt clock sender =>
      simp only [applyOp] at hap
      obtain ⟨a, ha, hr⟩ := except_map_ok _ _ _ hap
      obtain ⟨-, -, -, hg2, -, -⟩ :=
        solve_ok_characterize keccak256 game answer_input user_salt game_salt
          clock sender a.1 a.2.1 a.2.2 ha
      rw [hr, hg2]
      intro hcontra
      exact ⟨rfl, Nat.sub_self game.pot⟩

/-- C9: in every game state reachable from `create_game` by any sequence of
transactions, `is_solved = true` implies the winner is recorded and the
prize pool is exactly zero. -/
theorem solved_implies_winner_and_empty_pot (keccak256 : Bytes → Bytes)
    (game : Game) (h : Reachable keccak256 game)
    (hs : game.is_solved = true) :
    game.winner.isSome ∧ game.pot = 0 := by
  revert hs
  induction h with
  | create id answer_hash walrus_blob_id encrypted_keys encryption_ids_bytes
      sender g ev hcg =>
    intro hs
    obtain ⟨-, -, hg, -⟩ := create_game_ok_characterize id answer_hash
      walrus_blob_id encrypted_keys encryption_ids_bytes sender g ev hcg
    rw [hg] at hs
    exact absurd hs (by simp)
  | step op g _ ih =>
    intro hs
    exact step_preserves_settlement_invariant keccak256 op g ih hs

/-- A reachable game obtained by creating, committing as player 7 and
solving as player 7 under the concrete hash `hashId`. -/
def gReachSolved : Game :=
  step hashId (Op.solveOp [1] [2] [] 5 7)
    (step hashId (Op.commitGuess [1, 2] 0 7) gCreate)

/-- Helper: that game is indeed reachable. -/
theorem gReachSolved_reachable : Reachable hashId gReachSolved :=
  Reachable.step (Op.solveOp [1] [2] [] 5 7) _
    (Reachable.step (Op.commitGuess [1, 2] 0 7) _
      (Reachable.create 0 [1] [] (List.replicate 100 [])
        (List.replicate 100 []) 3 gCreate { game_id := 0 } rfl))

/-- Witness for C9 on the concrete reachable solved game. -/
theorem solved_implies_winner_and_empty_pot_witness :
    gReachSolved.winner.isSome ∧ gReachSolved.pot = 0 :=
  solved_implies_winner_and_empty_pot hashId gReachSolved
    gReachSolved_reachable (by decide)
